import Mathlib

/-!
Verification of the matches-analytics aggregation engine and the
email-batching utility of this repository.

The email utility (`generateGmailUrl`, `batchEmails`, the user-attribute
merge) is embedded directly from `docs/email.js`.  The analytics metric
computers are not shipped as code in this repository (only their
documentation, `docs/pages/matches-analytics.md`, is); they are modelled
from the specification, faithful to its words, as marked on each
definition.
-/

namespace Analytics

/-- Modelled from the spec: the decision enum `is_liked` of a match row,
one of liked / disliked / passed (null is represented by `Option`). -/
inductive Decision where
  | liked
  | disliked
  | passed
deriving DecidableEq, Repr

/-- Modelled from the spec: one `user_matches` row (MatchRecord, §3 of the
spec).  User ids and calendar dates are represented as naturals,
timestamps as integers. -/
structure MatchRecord where
  viewerId : Nat
  candidateId : Nat
  rank : Nat
  viewed : Bool
  viewedAt : Option Int
  decision : Option Decision
  decidedAt : Option Int
  knowMoreCount : Nat
  createdAt : Nat
deriving DecidableEq, Repr

/-- Modelled from the spec: the set of unique viewers (`current_user_id`)
having at least one row satisfying the predicate — the §4.2
UniqueUserAggregator "any-row" primitive. -/
def usersWhere (rows : List MatchRecord) (p : MatchRecord → Bool) : Finset Nat :=
  ((rows.filter p).map (·.viewerId)).toFinset

/-- Modelled from the spec: `countUsersWhere` of §4.2 — the number of
unique viewers with at least one row satisfying the predicate. -/
def countUsersWhere (rows : List MatchRecord) (p : MatchRecord → Bool) : Nat :=
  (usersWhere rows p).card

/-- Modelled from the spec: the §4.2 percentage helper; returns 0 when the
denominator is 0 (a total function over ℚ: no exception, no NaN). -/
def percentage (num den : ℚ) : ℚ :=
  if den = 0 then 0 else num / den * 100

theorem mem_usersWhere {rows : List MatchRecord} {p : MatchRecord → Bool} {u : Nat} :
    u ∈ usersWhere rows p ↔ ∃ r ∈ rows, p r = true ∧ r.viewerId = u := by
  simp only [usersWhere, List.mem_toFinset, List.mem_map, List.mem_filter]
  constructor
  · rintro ⟨r, ⟨hr, hp⟩, hv⟩
    exact ⟨r, hr, hp, hv⟩
  · rintro ⟨r, hr, hp, hv⟩
    exact ⟨r, ⟨hr, hp⟩, hv⟩

/-- Modelled from the spec: the four §4.8 Ghost & Pass-Only behavior
segments. -/
inductive Segment where
  | active
  | passOnly
  | ghost
  | neverViewed
deriving DecidableEq, Repr

/-- Modelled from the spec: the rows belonging to one viewer. -/
def rowsOf (rows : List MatchRecord) (u : Nat) : List MatchRecord :=
  rows.filter (fun r => decide (r.viewerId = u))

/-- Modelled from the spec: §4.8 segment classification, evaluated in the
mandated priority order — active (any liked row) first, else pass-only
(any non-null decision), else ghost (any viewed row), else never-viewed. -/
def segmentOf (rows : List MatchRecord) (u : Nat) : Segment :=
  let mine := rowsOf rows u
  if mine.any (fun r => decide (r.decision = some Decision.liked)) then Segment.active
  else if mine.any (fun r => r.decision.isSome) then Segment.passOnly
  else if mine.any (fun r => r.viewed) then Segment.ghost
  else Segment.neverViewed

/-- Modelled from the spec: the population — unique viewers present in the
filtered rows. -/
def uniqueViewers (rows : List MatchRecord) : Finset Nat :=
  (rows.map (·.viewerId)).toFinset

/-- Modelled from the spec: the set of population viewers classified into
a given segment. -/
def segmentSet (rows : List MatchRecord) (s : Segment) : Finset Nat :=
  (uniqueViewers rows).filter (fun u => segmentOf rows u = s)

theorem segment_cases (rows : List MatchRecord) (u : Nat) :
    segmentOf rows u ∈ ({Segment.active, Segment.passOnly, Segment.ghost,
      Segment.neverViewed} : Finset Segment) := by
  rcases h : segmentOf rows u <;> simp

/-- Modelled from the spec: METRIC 1 funnel step "Users who Decided" —
unique viewers with at least one non-null decision. -/
def funnelDecided (rows : List MatchRecord) : Nat :=
  countUsersWhere rows (fun r => r.decision.isSome)

/-- Modelled from the spec: METRIC 1 funnel step "Liked at least 1". -/
def funnelLiked (rows : List MatchRecord) : Nat :=
  countUsersWhere rows (fun r => decide (r.decision = some Decision.liked))

/-- Modelled from the spec: METRIC 1 funnel step "Disliked at least 1". -/
def funnelDisliked (rows : List MatchRecord) : Nat :=
  countUsersWhere rows (fun r => decide (r.decision = some Decision.disliked))

/-- Modelled from the spec: METRIC 1 funnel step "Passed at least 1". -/
def funnelPassed (rows : List MatchRecord) : Nat :=
  countUsersWhere rows (fun r => decide (r.decision = some Decision.passed))

/-- A two-row population for one viewer: one liked row and one disliked
row (ranks 1 and 2 on the same day). -/
def mixedDecisionRows : List MatchRecord :=
  [{ viewerId := 1, candidateId := 2, rank := 1, viewed := true,
     viewedAt := some 10, decision := some Decision.liked, decidedAt := some 15,
     knowMoreCount := 0, createdAt := 0 },
   { viewerId := 1, candidateId := 3, rank := 2, viewed := true,
     viewedAt := some 20, decision := some Decision.disliked, decidedAt := some 25,
     knowMoreCount := 0, createdAt := 0 }]

/-- A row whose decision precedes its view: latency is negative. -/
def negRow : MatchRecord :=
  { viewerId := 1, candidateId := 2, rank := 1, viewed := true,
    viewedAt := some 100, decision := some Decision.liked, decidedAt := some 50,
    knowMoreCount := 0, createdAt := 0 }

theorem usersWhere_decided_eq_union (rows : List MatchRecord) :
    usersWhere rows (fun r => r.decision.isSome) =
      usersWhere rows (fun r => decide (r.decision = some Decision.liked)) ∪
      usersWhere rows (fun r => decide (r.decision = some Decision.disliked)) ∪
      usersWhere rows (fun r => decide (r.decision = some Decision.passed)) := by
  ext u
  simp only [Finset.mem_union, mem_usersWhere, decide_eq_true_eq]
  constructor
  · rintro ⟨r, hr, hp, hv⟩
    rcases hd : r.decision with _ | d
    · rw [hd] at hp; simp at hp
    · rcases d
      · exact Or.inl (Or.inl ⟨r, hr, hd, hv⟩)
      · exact Or.inl (Or.inr ⟨r, hr, hd, hv⟩)
      · exact Or.inr ⟨r, hr, hd, hv⟩
  · rintro ((⟨r, hr, hd, hv⟩ | ⟨r, hr, hd, hv⟩) | ⟨r, hr, hd, hv⟩) <;>
      exact ⟨r, hr, by simp [hd], hv⟩

/-- Modelled from the spec: §4.3 decision latency — `decidedAt - viewedAt`
when both timestamps are present, `none` otherwise. -/
def latency (r : MatchRecord) : Option Int :=
  match r.viewedAt, r.decidedAt with
  | some v, some d => some (d - v)
  | _, _ => none

/-- A row has negative latency when both timestamps are present and the
decision precedes the view. -/
def hasNegativeLatency (r : MatchRecord) : Bool :=
  match latency r with
  | some l => decide (l < 0)
  | none => false

/-- Modelled from the spec: the §4.3 DecisionLatency output — the rows
entering the likes distribution, the rows entering the dislikes/passes
distribution, and the negative-latency diagnostics counter. -/
structure LatencyResult where
  likeRows : List MatchRecord
  dislikePassRows : List MatchRecord
  negativeLatencyCount : Nat
deriving DecidableEq, Repr

/-- Modelled from the spec: the §4.3 DecisionLatency pass.  Rows without
both timestamps are skipped; rows with negative latency increment the
diagnostics counter and enter neither distribution; the remaining rows are
partitioned into the likes vs dislikes/passes distributions by decision. -/
def computeLatency : List MatchRecord → LatencyResult
  | [] => { likeRows := [], dislikePassRows := [], negativeLatencyCount := 0 }
  | r :: rest =>
    let res := computeLatency rest
    match latency r with
    | none => res
    | some l =>
      if l < 0 then
        { res with negativeLatencyCount := res.negativeLatencyCount + 1 }
      else
        match r.decision with
        | some Decision.liked => { res with likeRows := r :: res.likeRows }
        | some Decision.disliked => { res with dislikePassRows := r :: res.dislikePassRows }
        | some Decision.passed => { res with dislikePassRows := r :: res.dislikePassRows }
        | none => res

theorem computeLatency_member_nonneg (rows : List MatchRecord) :
    (∀ r ∈ (computeLatency rows).likeRows, hasNegativeLatency r = false) ∧
    (∀ r ∈ (computeLatency rows).dislikePassRows, hasNegativeLatency r = false) := by
  induction rows with
  | nil => simp [computeLatency]
  | cons r rest ih =>
    rcases ih with ⟨ihl, ihd⟩
    unfold computeLatency
    rcases hl : latency r with _ | l
    · exact ⟨ihl, ihd⟩
    · by_cases hneg : l < 0
      · simp only [hl, hneg, if_pos]
        exact ⟨ihl, ihd⟩
      · have hr : hasNegativeLatency r = false := by
          unfold hasNegativeLatency
          rw [hl]
          simpa using hneg
        rcases hd : r.decision with _ | d
        · simp only [hl, hneg, if_neg, hd]
          exact ⟨ihl, ihd⟩
        · rcases d
          · simp only [hl, hneg, if_neg, hd]
            refine ⟨fun x hx => ?_, ihd⟩
            rcases List.mem_cons.mp hx with hx | hx
            · exact hx ▸ hr
            · exact ihl x hx
          · simp only [hl, hneg, if_neg, hd]
            refine ⟨ihl, fun x hx => ?_⟩
            rcases List.mem_cons.mp hx with hx | hx
            · exact hx ▸ hr
            · exact ihd x hx
          · simp only [hl, hneg, if_neg, hd]
            refine ⟨ihl, fun x hx => ?_⟩
            rcases List.mem_cons.mp hx with hx | hx
            · exact hx ▸ hr
            · exact ihd x hx

theorem computeLatency_count (rows : List MatchRecord) :
    (computeLatency rows).negativeLatencyCount =
      (rows.filter hasNegativeLatency).length := by
  induction rows with
  | nil => simp [computeLatency]
  | cons r rest ih =>
    unfold computeLatency
    rcases hl : latency r with _ | l
    · have hr : hasNegativeLatency r = false := by
        unfold hasNegativeLatency; rw [hl]
      simp [hr, ih]
    · by_cases hneg : l < 0
      · have hr : hasNegativeLatency r = true := by
          unfold hasNegativeLatency; rw [hl]; simpa using hneg
        simp [hl, hneg, hr, ih, List.filter_cons]
      · have hr : hasNegativeLatency r = false := by
          unfold hasNegativeLatency; rw [hl]; simpa using hneg
        rcases hd : r.decision with _ | d
        · simp [hl, hneg, hd, hr, ih]
        · rcases d <;> simp [hl, hneg, hd, hr, ih]

/-- Modelled from the spec: §4.6 match-with-engagement — a row counts as
engagement when it was viewed or decided. -/
def isEngagedRow (r : MatchRecord) : Bool :=
  r.viewed || r.decision.isSome

/-- Modelled from the spec: the §4.6 per-date active-viewer set — unique
viewers with at least one engaged row whose `createdAt` day is `d`. -/
def activeOn (rows : List MatchRecord) (d : Nat) : Finset Nat :=
  usersWhere rows (fun r => decide (r.createdAt = d) && isEngagedRow r)

/-- Modelled from the spec: the per-date active-viewer sets, precomputed
once per selected date (the §4.6 requirement that the overlap matrix be
built from these sets, not by re-scanning rows per cell). -/
def activeSets (rows : List MatchRecord) (dates : List Nat) : List (Finset Nat) :=
  dates.map (activeOn rows)

/-- Modelled from the spec: cell (i, j) of the §4.6 Date × Date overlap
matrix — the size of the intersection of the precomputed active-viewer
sets of dates i and j. -/
def overlapCell (rows : List MatchRecord) (dates : List Nat)
    (i j : Fin dates.length) : Nat :=
  (((activeSets rows dates).get ⟨i.val, by simp [activeSets]⟩) ∩
   ((activeSets rows dates).get ⟨j.val, by simp [activeSets]⟩)).card

theorem activeSets_get (rows : List MatchRecord) (dates : List Nat)
    (i : Fin dates.length) (h : i.val < (activeSets rows dates).length) :
    (activeSets rows dates).get ⟨i.val, h⟩ = activeOn rows (dates.get i) := by
  simp [activeSets]

/-- Modelled from the spec: §4.6 engagement of one viewer on one date —
the viewer has at least one engaged row created that day. -/
def engagedOn (rows : List MatchRecord) (u d : Nat) : Bool :=
  rows.any (fun r => decide (r.viewerId = u) && decide (r.createdAt = d) && isEngagedRow r)

/-- Modelled from the spec: §4.6 retention — the number of distinct
selected dates on which a viewer had at least one engaged row. -/
def activeDateCount (rows : List MatchRecord) (dates : Finset Nat) (u : Nat) : Nat :=
  (dates.filter (fun d => engagedOn rows u d = true)).card

/-- Modelled from the spec: the unique-viewer population across the
selected dates — viewers with any match row on one of those dates. -/
def populationAcross (rows : List MatchRecord) (dates : Finset Nat) : Finset Nat :=
  usersWhere rows (fun r => decide (r.createdAt ∈ dates))

/-- Modelled from the spec: the §4.6 retention bucket for engagement count
`k` (buckets `0 … N` derived dynamically from N = `|dateSet|`). -/
def retentionBucketCount (rows : List MatchRecord) (dates : Finset Nat) (k : Nat) : Nat :=
  ((populationAcross rows dates).filter (fun u => activeDateCount rows dates u = k)).card

/-- Modelled from the spec: one row of the §4.4 RankPerformance table. -/
structure RankRow where
  total : Nat
  viewedCount : Nat
  viewPct : ℚ
  kmAvg : ℚ
  likedCount : Nat
  likePct : ℚ
  dislikedCount : Nat
  dislikePct : ℚ
  passedCount : Nat
  passPct : ℚ

/-- Modelled from the spec: the §4.4 RankPerformance computation for one
rank — unique-viewer counts over the rows at that rank, View% against
total, decision percentages against viewed, and the row-mean of
`knowMoreCount`. -/
def rankRow (rows : List MatchRecord) (rk : Nat) : RankRow :=
  let atRank := rows.filter (fun r => decide (r.rank = rk))
  let total := countUsersWhere atRank (fun _ => true)
  let viewedC := countUsersWhere atRank (fun r => r.viewed)
  let likedC := countUsersWhere atRank (fun r => decide (r.decision = some Decision.liked))
  let dislikedC := countUsersWhere atRank (fun r => decide (r.decision = some Decision.disliked))
  let passedC := countUsersWhere atRank (fun r => decide (r.decision = some Decision.passed))
  { total := total
    viewedCount := viewedC
    viewPct := percentage viewedC total
    kmAvg := if atRank.length = 0 then 0
             else ((atRank.map (·.knowMoreCount)).sum : ℚ) / (atRank.length : ℚ)
    likedCount := likedC
    likePct := percentage likedC viewedC
    dislikedCount := dislikedC
    dislikePct := percentage dislikedC viewedC
    passedCount := passedC
    passPct := percentage passedC viewedC }

end Analytics

/-- C5: the overlap matrix built from the precomputed per-date
active-viewer sets has diagonal cells equal to the per-date active-viewer
set sizes, off-diagonal cells equal to the pairwise intersection sizes,
and is symmetric. -/
theorem overlap_matrix_reference (rows : List Analytics.MatchRecord)
    (dates : List Nat) (i j : Fin dates.length) :
    Analytics.overlapCell rows dates i i =
      (Analytics.activeOn rows (dates.get i)).card ∧
    Analytics.overlapCell rows dates i j =
      ((Analytics.activeOn rows (dates.get i)) ∩
       (Analytics.activeOn rows (dates.get j))).card ∧
    Analytics.overlapCell rows dates i j = Analytics.overlapCell rows dates j i := by
  refine ⟨?_, ?_, ?_⟩
  · simp [Analytics.overlapCell, Analytics.activeSets]
  · simp [Analytics.overlapCell, Analytics.activeSets]
  · simp only [Analytics.overlapCell]
    rw [Finset.inter_comm]

/-- C6: for any filter selecting between 1 and 10 dates, the dynamically
derived retention buckets 0 … N (N the number of selected dates) have
counts summing to the unique-viewer population across those dates. -/
theorem retention_buckets_sum_to_population (rows : List Analytics.MatchRecord)
    (dates : Finset Nat) (h1 : 1 ≤ dates.card) (h2 : dates.card ≤ 10) :
    ∑ k in Finset.range (dates.card + 1),
      Analytics.retentionBucketCount rows dates k =
      (Analytics.populationAcross rows dates).card := by
  have h := Finset.card_eq_sum_card_fiberwise
    (f := Analytics.activeDateCount rows dates)
    (s := Analytics.populationAcross rows dates)
    (t := Finset.range (dates.card + 1))
    (fun u _ => by
      simp only [Finset.mem_range, Nat.lt_succ_iff]
      exact Finset.card_filter_le _ _)
  simpa [Analytics.retentionBucketCount] using h.symm

/-- C6 witness: one viewer engaged on the single selected date 0. -/
theorem retention_buckets_sum_to_population_witness :
    ∑ k in Finset.range ((({0} : Finset Nat)).card + 1),
      Analytics.retentionBucketCount Analytics.mixedDecisionRows {0} k =
      (Analytics.populationAcross Analytics.mixedDecisionRows {0}).card :=
  retention_buckets_sum_to_population Analytics.mixedDecisionRows {0}
    (by decide) (by decide)

/-- C7: in every RankPerformance row for a rank between 1 and 9, View% is
the unique-viewer viewed count divided by the unique-viewer total at that
rank, while Like%, Dislike% and Pass% are denominated against the viewed
count at that rank, not against the total. -/
theorem rank_percentages_denominators (rows : List Analytics.MatchRecord)
    (rk : Nat) (h1 : 1 ≤ rk) (h2 : rk ≤ 9) :
    (Analytics.rankRow rows rk).total =
      Analytics.countUsersWhere (rows.filter (fun r => decide (r.rank = rk)))
        (fun _ => true) ∧
    (Analytics.rankRow rows rk).viewedCount =
      Analytics.countUsersWhere (rows.filter (fun r => decide (r.rank = rk)))
        (fun r => r.viewed) ∧
    (Analytics.rankRow rows rk).viewPct =
      Analytics.percentage ((Analytics.rankRow rows rk).viewedCount)
        ((Analytics.rankRow rows rk).total) ∧
    (Analytics.rankRow rows rk).likePct =
      Analytics.percentage ((Analytics.rankRow rows rk).likedCount)
        ((Analytics.rankRow rows rk).viewedCount) ∧
    (Analytics.rankRow rows rk).dislikePct =
      Analytics.percentage ((Analytics.rankRow rows rk).dislikedCount)
        ((Analytics.rankRow rows rk).viewedCount) ∧
    (Analytics.rankRow rows rk).passPct =
      Analytics.percentage ((Analytics.rankRow rows rk).passedCount)
        ((Analytics.rankRow rows rk).viewedCount) :=
  ⟨rfl, rfl, rfl, rfl, rfl, rfl⟩

/-- C7 witness: the rank-1 row of the two-row mixed-decision population. -/
theorem rank_percentages_denominators_witness :
    (Analytics.rankRow Analytics.mixedDecisionRows 1).total =
      Analytics.countUsersWhere
        (Analytics.mixedDecisionRows.filter (fun r => decide (r.rank = 1)))
        (fun _ => true) ∧
    (Analytics.rankRow Analytics.mixedDecisionRows 1).viewedCount =
      Analytics.countUsersWhere
        (Analytics.mixedDecisionRows.filter (fun r => decide (r.rank = 1)))
        (fun r => r.viewed) ∧
    (Analytics.rankRow Analytics.mixedDecisionRows 1).viewPct =
      Analytics.percentage ((Analytics.rankRow Analytics.mixedDecisionRows 1).viewedCount)
        ((Analytics.rankRow Analytics.mixedDecisionRows 1).total) ∧
    (Analytics.rankRow Analytics.mixedDecisionRows 1).likePct =
      Analytics.percentage ((Analytics.rankRow Analytics.mixedDecisionRows 1).likedCount)
        ((Analytics.rankRow Analytics.mixedDecisionRows 1).viewedCount) ∧
    (Analytics.rankRow Analytics.mixedDecisionRows 1).dislikePct =
      Analytics.percentage ((Analytics.rankRow Analytics.mixedDecisionRows 1).dislikedCount)
        ((Analytics.rankRow Analytics.mixedDecisionRows 1).viewedCount) ∧
    (Analytics.rankRow Analytics.mixedDecisionRows 1).passPct =
      Analytics.percentage ((Analytics.rankRow Analytics.mixedDecisionRows 1).passedCount)
        ((Analytics.rankRow Analytics.mixedDecisionRows 1).viewedCount) :=
  rank_percentages_denominators Analytics.mixedDecisionRows 1 (by decide) (by decide)

namespace Email

/-- Modelled from the ECMAScript builtin used by `docs/email.js`: the
UTF-8 byte sequence of a character (needed by `encodeURIComponent`). -/
def utf8Bytes (c : Char) : List Nat :=
  let n := c.toNat
  if n < 128 then [n]
  else if n < 2048 then [192 + n / 64, 128 + n % 64]
  else if n < 65536 then [224 + n / 4096, 128 + (n / 64) % 64, 128 + n % 64]
  else [240 + n / 262144, 128 + (n / 4096) % 64, 128 + (n / 64) % 64, 128 + n % 64]

/-- Uppercase hexadecimal digit of a value below 16. -/
def hexDigit (n : Nat) : Char :=
  if n < 10 then Char.ofNat (48 + n) else Char.ofNat (55 + n)

/-- Modelled from the ECMAScript builtin: the characters
`encodeURIComponent` leaves unescaped (alphanumerics and `- _ . ! ~ * ' (
)`; the apostrophe is written as `Char.ofNat 39`). -/
def isUnreservedChar (c : Char) : Bool :=
  c.isAlpha || c.isDigit ||
  c == '-' || c == '_' || c == '.' || c == '!' || c == '~' || c == '*' ||
  c == Char.ofNat 39 || c == '(' || c == ')'

/-- Modelled from the ECMAScript builtin `encodeURIComponent`: unreserved
characters are kept, every other character is replaced by the
percent-encoding of its UTF-8 bytes. -/
def encodeURIComponent (s : String) : String :=
  String.mk (s.data.flatMap (fun c =>
    if isUnreservedChar c then [c]
    else (utf8Bytes c).flatMap (fun b => ['%', hexDigit (b / 16), hexDigit (b % 16)])))

/-- From `docs/email.js`: the URL character limit for Gmail compose URLs. -/
def MAX_URL_LENGTH : Nat := 1800

/-- From `docs/email.js` (`generateGmailUrl`): the compose URL — the
emails joined by commas as the bcc list, the subject and body
URL-encoded. -/
def generateGmailUrl (emails : List String) (subject body : String) : String :=
  "https://mail.google.com/mail/u/0/?fs=1&bcc=" ++ String.intercalate "," emails ++
    "&su=" ++ encodeURIComponent subject ++
    "&body=" ++ encodeURIComponent body ++ "&tf=cm"

/-- From `docs/email.js` (`batchEmails` loop): state-passing form of the
for-loop.  Each email is pushed onto the current batch; if the test URL
exceeds the limit, the email is popped again, the previous batch (when
non-empty) is saved and the email starts a fresh batch; otherwise, when
the batch is full by count, it is saved and the batch is reset. -/
def batchLoop (subject body : String) (maxBatchSize : Nat) :
    List String → List (List String) → List String → List (List String)
  | [], batches, current =>
    if current.isEmpty then batches else batches ++ [current]
  | e :: rest, batches, current =>
    let cur := current ++ [e]
    let testUrl := generateGmailUrl cur subject body
    if MAX_URL_LENGTH < testUrl.length then
      if current.isEmpty then batchLoop subject body maxBatchSize rest batches [e]
      else batchLoop subject body maxBatchSize rest (batches ++ [current]) [e]
    else if maxBatchSize ≤ cur.length then
      batchLoop subject body maxBatchSize rest (batches ++ [cur]) []
    else
      batchLoop subject body maxBatchSize rest batches cur

/-- From `docs/email.js` (`batchEmails`): run the loop from the empty
state and flush the last non-empty batch. -/
def batchEmails (emails : List String) (subject body : String)
    (maxBatchSize : Nat) : List (List String) :=
  batchLoop subject body maxBatchSize emails [] []

/-- From `docs/email.js` (`generateEmailBatches`): one `user_data` row. -/
structure UserDataRow where
  user_id : String
  user_email : Option String
deriving DecidableEq, Repr

/-- From `docs/email.js` (`generateEmailBatches`): one `user_metadata`
row. -/
structure UserMetadataRow where
  user_id : String
  gender : Option String
deriving DecidableEq, Repr

/-- From `docs/email.js` (`generateEmailBatches`): a merged user record. -/
structure MergedUser where
  user_id : String
  user_email : Option String
  gender : Option String
deriving DecidableEq, Repr

/-- From `docs/email.js` lines 180–187: gender resolution by optional
lookup — `userMetadata.find(...)` followed by `metadata?.gender || null`
(an absent record, an absent gender and the empty string are all falsy and
give null). -/
def resolveGender (uid : String) (userMetadata : List UserMetadataRow) : Option String :=
  match userMetadata.find? (fun um => um.user_id == uid) with
  | none => none
  | some m =>
    match m.gender with
    | none => none
    | some g => if g = "" then none else some g

/-- From `docs/email.js` lines 180–187: the merge of `user_data` and
`user_metadata` into user records. -/
def mergeUsers (userData : List UserDataRow)
    (userMetadata : List UserMetadataRow) : List MergedUser :=
  userData.map (fun ud =>
    { user_id := ud.user_id
      user_email := ud.user_email
      gender := resolveGender ud.user_id userMetadata })

theorem batchLoop_flatten (subject body : String) (maxBatchSize : Nat)
    (emails : List String) (batches : List (List String)) (current : List String) :
    (batchLoop subject body maxBatchSize emails batches current).flatten =
      batches.flatten ++ current ++ emails := by
  induction emails generalizing batches current with
  | nil =>
    by_cases h : current.isEmpty
    · rw [List.isEmpty_iff] at h
      simp [batchLoop, h]
    · simp [batchLoop, h]
  | cons e rest ih =>
    simp only [batchLoop]
    split_ifs with hu hc hm
    · rw [List.isEmpty_iff] at hc
      subst hc
      simp [ih]
    · simp [ih]
    · simp [ih]
    · simp [ih]

/-- A batch is within bounds when its compose URL fits the limit or it is
a singleton (a lone address that can never fit is still emitted alone). -/
def batchOk (subject body : String) (b : List String) : Prop :=
  (generateGmailUrl b subject body).length ≤ MAX_URL_LENGTH ∨ b.length = 1

theorem batchLoop_ok (subject body : String) (maxBatchSize : Nat)
    (emails : List String) (batches : List (List String)) (current : List String)
    (hb : ∀ b ∈ batches, batchOk subject body b)
    (hc : current = [] ∨ batchOk subject body current) :
    ∀ b ∈ batchLoop subject body maxBatchSize emails batches current,
      batchOk subject body b := by
  induction emails generalizing batches current with
  | nil =>
    intro b hmem
    unfold batchLoop at hmem
    by_cases h : current.isEmpty
    · rw [if_pos h] at hmem
      exact hb b hmem
    · rw [if_neg h] at hmem
      rcases List.mem_append.mp hmem with h2 | h2
      · exact hb b h2
      · have hbc : b = current := by simpa using h2
        subst hbc
        rcases hc with hc | hc
        · subst hc; simp at h
        · exact hc
  | cons e rest ih =>
    intro b hmem
    simp only [batchLoop] at hmem
    split_ifs at hmem with hu hcc hm
    · exact ih batches [e] hb (Or.inr (Or.inr rfl)) b hmem
    · refine ih (batches ++ [current]) [e] ?_ (Or.inr (Or.inr rfl)) b hmem
      intro b2 hb3
      rcases List.mem_append.mp hb3 with h2 | h2
      · exact hb b2 h2
      · have hbc : b2 = current := by simpa using h2
        subst hbc
        rcases hc with hc | hc
        · subst hc; simp at hcc
        · exact hc
    · refine ih (batches ++ [current ++ [e]]) [] ?_ (Or.inl rfl) b hmem
      intro b2 hb3
      rcases List.mem_append.mp hb3 with h2 | h2
      · exact hb b2 h2
      · have hbc : b2 = current ++ [e] := by simpa using h2
        subst hbc
        exact Or.inl (le_of_not_lt hu)
    · exact ih batches (current ++ [e]) hb
        (Or.inr (Or.inl (le_of_not_lt hu))) b hmem

/-- An 1801-character address; its solo compose URL (empty subject and
body) is 1860 characters long, past the 1800-character limit. -/
def longEmail : String := String.mk (List.replicate 1801 (Char.ofNat 97))

end Email

/-- C9: batchEmails never drops, duplicates or reorders an address — the
concatenation of the returned batches is the input email list, for every
subject, body and batch size. -/
theorem batchEmails_flatten_eq_input (emails : List String) (subject body : String)
    (maxBatchSize : Nat) :
    (Email.batchEmails emails subject body maxBatchSize).flatten = emails := by
  simp [Email.batchEmails, Email.batchLoop_flatten]

/-- C10 counterexample: on a single 1801-character address the only batch
returned produces a compose URL of 1860 characters, exceeding the
1800-character limit — so not every batch fits the limit. -/
theorem gmail_url_bound_counterexample :
    ∃ b ∈ Email.batchEmails [Email.longEmail] "" "" 25,
      Email.MAX_URL_LENGTH < (Email.generateGmailUrl b "" "").length := by
  have hgt : Email.MAX_URL_LENGTH <
      (Email.generateGmailUrl [Email.longEmail] "" "").length := by
    rw [show Email.generateGmailUrl [Email.longEmail] "" "" =
          "https://mail.google.com/mail/u/0/?fs=1&bcc=" ++ Email.longEmail ++
          "&su=" ++ "" ++ "&body=" ++ "" ++ "&tf=cm" from rfl,
        String.length_append, String.length_append, String.length_append,
        String.length_append, String.length_append, String.length_append,
        show Email.longEmail.length =
          (List.replicate 1801 (Char.ofNat 97)).length from rfl,
        List.length_replicate]
    decide
  have hbatch : Email.batchEmails [Email.longEmail] "" "" 25 =
      [[Email.longEmail]] := by
    simp [Email.batchEmails, Email.batchLoop, hgt]
  rw [hbatch]
  exact ⟨[Email.longEmail], by simp, hgt⟩

/-- C10 (amended): every batch returned by batchEmails yields a compose
URL of at most 1800 characters, except possibly a singleton batch whose
lone address already exceeds the limit by itself. -/
theorem batchEmails_url_within_limit (emails : List String) (subject body : String)
    (maxBatchSize : Nat) :
    ∀ b ∈ Email.batchEmails emails subject body maxBatchSize,
      (Email.generateGmailUrl b subject body).length ≤ Email.MAX_URL_LENGTH ∨
      ∃ e, b = [e] ∧
        Email.MAX_URL_LENGTH < (Email.generateGmailUrl [e] subject body).length := by
  intro b hb
  have h := Email.batchLoop_ok subject body maxBatchSize emails [] []
    (by simp) (Or.inl rfl) b hb
  rcases h with h | h
  · exact Or.inl h
  · by_cases hlen :
      (Email.generateGmailUrl b subject body).length ≤ Email.MAX_URL_LENGTH
    · exact Or.inl hlen
    · rcases b with _ | ⟨e, rest⟩
      · simp at h
      · rcases rest with _ | ⟨f, rest2⟩
        · exact Or.inr ⟨e, rfl, lt_of_not_le hlen⟩
        · simp at h

/-- C10 witness: the first batch of a two-address run with batch size 1
fits the limit. -/
theorem batchEmails_url_within_limit_witness :
    (Email.generateGmailUrl ["a"] "s" "t").length ≤ Email.MAX_URL_LENGTH ∨
    ∃ e, ["a"] = [e] ∧
      Email.MAX_URL_LENGTH < (Email.generateGmailUrl [e] "s" "t").length :=
  batchEmails_url_within_limit ["a", "b"] "s" "t" 1 ["a"] (by decide)

/-- C8: when no user_metadata record exists for a user id, the optional
lookup of `generateEmailBatches` resolves without error and classifies the
gender as null; the merged user record keeps the id and email with gender
null. -/
theorem missing_metadata_gender_null (uid : String)
    (userMetadata : List Email.UserMetadataRow)
    (h : ∀ m ∈ userMetadata, m.user_id ≠ uid) :
    Email.resolveGender uid userMetadata = none ∧
    ∀ email : Option String,
      Email.mergeUsers [{ user_id := uid, user_email := email }] userMetadata =
        [{ user_id := uid, user_email := email, gender := none }] := by
  have hfind : userMetadata.find? (fun um => um.user_id == uid) = none := by
    rw [List.find?_eq_none]
    intro m hm
    simpa using h m hm
  have hres : Email.resolveGender uid userMetadata = none := by
    rw [Email.resolveGender, hfind]
  refine ⟨hres, fun email => ?_⟩
  simp [Email.mergeUsers, hres]

/-- C8 witness: a lookup of an id absent from a one-record metadata
table. -/
theorem missing_metadata_gender_null_witness :
    Email.resolveGender "x" [{ user_id := "y", gender := some "male" }] = none ∧
    ∀ email : Option String,
      Email.mergeUsers [{ user_id := "x", user_email := email }]
          [{ user_id := "y", gender := some "male" }] =
        [{ user_id := "x", user_email := email, gender := none }] :=
  missing_metadata_gender_null "x" [{ user_id := "y", gender := some "male" }]
    (by decide)

/-- C4: every row with both timestamps and negative latency is excluded
from both the likes and the dislikes/passes latency distributions, and the
negative-latency diagnostics counter equals the number of such rows — none
is silently discarded. -/
theorem negative_latency_rows_diagnosed (rows : List Analytics.MatchRecord) :
    (Analytics.computeLatency rows).negativeLatencyCount =
      (rows.filter Analytics.hasNegativeLatency).length ∧
    ∀ r, Analytics.hasNegativeLatency r = true →
      r ∉ (Analytics.computeLatency rows).likeRows ∧
      r ∉ (Analytics.computeLatency rows).dislikePassRows := by
  refine ⟨Analytics.computeLatency_count rows, fun r hneg => ⟨fun hmem => ?_, fun hmem => ?_⟩⟩
  · have := (Analytics.computeLatency_member_nonneg rows).1 r hmem
    rw [hneg] at this
    simp at this
  · have := (Analytics.computeLatency_member_nonneg rows).2 r hmem
    rw [hneg] at this
    simp at this

/-- C2: the funnel's liked / disliked / passed counts are unique-viewer
any-row counts, so their sum always dominates the decided count; on the
concrete two-row population `mixedDecisionRows` (one viewer, one liked
row, one disliked row) the sum is 2 while the viewer is counted exactly
once in decided — so the inequality is not forced into an equality. -/
theorem funnel_sum_dominates_decided :
    (∀ rows : List Analytics.MatchRecord,
      Analytics.funnelDecided rows ≤
        Analytics.funnelLiked rows + Analytics.funnelDisliked rows +
          Analytics.funnelPassed rows) ∧
    Analytics.funnelDecided Analytics.mixedDecisionRows = 1 ∧
    Analytics.funnelLiked Analytics.mixedDecisionRows +
      Analytics.funnelDisliked Analytics.mixedDecisionRows +
      Analytics.funnelPassed Analytics.mixedDecisionRows = 2 := by
  refine ⟨fun rows => ?_, by decide, by decide⟩
  unfold Analytics.funnelDecided Analytics.funnelLiked Analytics.funnelDisliked
    Analytics.funnelPassed Analytics.countUsersWhere
  rw [Analytics.usersWhere_decided_eq_union]
  exact le_trans (Finset.card_union_le _ _)
    (Nat.add_le_add_right (Finset.card_union_le _ _) _)

/-- C1: the §4.8 segmentation assigns each unique viewer of the filtered
population to exactly one of the four segments: the segment sets are
pairwise disjoint and their cardinalities sum to the number of unique
viewers. -/
theorem ghost_passOnly_segmentation_partitions (rows : List Analytics.MatchRecord) :
    (∀ s t : Analytics.Segment, s ≠ t →
      Disjoint (Analytics.segmentSet rows s) (Analytics.segmentSet rows t)) ∧
    (Analytics.segmentSet rows Analytics.Segment.active).card +
      (Analytics.segmentSet rows Analytics.Segment.passOnly).card +
      (Analytics.segmentSet rows Analytics.Segment.ghost).card +
      (Analytics.segmentSet rows Analytics.Segment.neverViewed).card =
      (Analytics.uniqueViewers rows).card := by
  constructor
  · intro s t hst
    rw [Finset.disjoint_left]
    intro u hus hut
    simp only [Analytics.segmentSet, Finset.mem_filter] at hus hut
    exact hst (hus.2 ▸ hut.2 ▸ rfl)
  · have h := Finset.card_eq_sum_card_fiberwise
      (f := Analytics.segmentOf rows)
      (s := Analytics.uniqueViewers rows)
      (t := {Analytics.Segment.active, Analytics.Segment.passOnly,
             Analytics.Segment.ghost, Analytics.Segment.neverViewed})
      (fun u _ => Analytics.segment_cases rows u)
    rw [Finset.sum_insert (by decide), Finset.sum_insert (by decide),
        Finset.sum_insert (by decide), Finset.sum_singleton] at h
    simp only [Analytics.segmentSet]
    omega

/-- C3: the percentage helper maps a zero denominator to 0 for every
numerator; being a total function on ℚ it can neither raise nor produce
NaN. -/
theorem percentage_zero_denominator (x : ℚ) : Analytics.percentage x 0 = 0 := by
  simp [Analytics.percentage]

/-- C1 witness: on the two-row mixed-decision population the active and
ghost segment sets are disjoint and the four segment sizes sum to the
population size. -/
theorem ghost_passOnly_segmentation_partitions_witness :
    Disjoint (Analytics.segmentSet Analytics.mixedDecisionRows Analytics.Segment.active)
      (Analytics.segmentSet Analytics.mixedDecisionRows Analytics.Segment.ghost) ∧
    (Analytics.segmentSet Analytics.mixedDecisionRows Analytics.Segment.active).card +
      (Analytics.segmentSet Analytics.mixedDecisionRows Analytics.Segment.passOnly).card +
      (Analytics.segmentSet Analytics.mixedDecisionRows Analytics.Segment.ghost).card +
      (Analytics.segmentSet Analytics.mixedDecisionRows Analytics.Segment.neverViewed).card =
      (Analytics.uniqueViewers Analytics.mixedDecisionRows).card :=
  ⟨(ghost_passOnly_segmentation_partitions Analytics.mixedDecisionRows).1
      Analytics.Segment.active Analytics.Segment.ghost (by decide),
   (ghost_passOnly_segmentation_partitions Analytics.mixedDecisionRows).2⟩

/-- C4 witness: a single row viewed at 100 and decided at 50 is counted
once by the diagnostics counter and enters neither distribution. -/
theorem negative_latency_rows_diagnosed_witness :
    (Analytics.computeLatency [Analytics.negRow]).negativeLatencyCount =
      ([Analytics.negRow].filter Analytics.hasNegativeLatency).length ∧
    Analytics.negRow ∉ (Analytics.computeLatency [Analytics.negRow]).likeRows ∧
    Analytics.negRow ∉ (Analytics.computeLatency [Analytics.negRow]).dislikePassRows :=
  ⟨(negative_latency_rows_diagnosed [Analytics.negRow]).1,
   (negative_latency_rows_diagnosed [Analytics.negRow]).2 Analytics.negRow (by decide)⟩
